import Mathlib

/-!
Verification of the `/alerts` endpoint of `backend/app/main.py`.

Shallow embedding of the alert-derivation engine (MES-Capstone-Team,
`src/backend/app/main.py`, `alerts`, lines 285-392).

Modelling conventions:
* The partition's `raw_conveyor` table is a `List Event` (one partition at a
  time, as every query in the endpoint is scoped to one `schema`).
* SQL timestamps and `NOW()` are rationals (seconds on an absolute axis);
  SQL numerics / Python floats are rationals.  `EXTRACT(EPOCH FROM ...)` is
  exact subtraction.
* `ORDER BY ... DESC LIMIT 1` is modelled by a deterministic left fold that
  keeps the first row achieving the maximum of the sort key; the source's
  tie-break among equal keys is unspecified, and the spec declares it
  implementation-defined, so any fixed refinement is faithful.
* Each of the three SQL reads may fail (connection/query errors); this is an
  `Except String` value fed to the handler, mirroring the `try/except` that
  wraps the body and returns `HTTPException(500, str(e))`.
-/

/-- A row of `raw_conveyor`, with the columns the endpoint selects:
`SELECT id, conveyor_id, part_id, source_pi, duration_sec, speed, event_time`. -/
structure Event where
  id : Int
  conveyor_id : String
  part_id : String
  source_pi : String
  duration_sec : ℚ
  speed : ℚ
  event_time : ℚ
deriving DecidableEq, Repr

/-- An element of the `active_alerts` list: the exact dict shape every
branch of the endpoint appends. -/
structure Alert where
  type : String
  severity : String
  title : String
  message : String
  source : String
  event_time : Option String
  conveyor_id : Option String
  part_id : Option String
  source_pi : Option String
  trigger_value : Option ℚ
  threshold : Option ℚ
deriving DecidableEq, Repr

/-- The response body `{"alerts": active_alerts, "count": len(active_alerts)}`. -/
structure AlertsResponse where
  alerts : List Alert
  count : Nat
deriving DecidableEq, Repr

/-- A left fold keeping the first element whose key `f` is maximal: the sort
underlying `ORDER BY f DESC LIMIT 1` (ties resolved deterministically, as a
refinement of the source's unspecified tie-break). -/
def pickMax {α : Type} (f : α → ℚ) (a : α) (l : List α) : α :=
  l.foldl (fun b x => if f b < f x then x else b) a

/-- The query `SELECT ... FROM raw_conveyor ORDER BY event_time DESC LIMIT 1`:
the most recent row, or `none` on an empty table (`cur.fetchone()` → `None`). -/
def latestQuery (db : List Event) : Option Event :=
  match db with
  | [] => none
  | e :: es => some (pickMax (fun x => x.event_time) e es)

/-- The aggregate `MAX(event_time)` over the whole table, `none` when the table is empty. -/
def maxEventTime (db : List Event) : Option ℚ :=
  match db with
  | [] => none
  | e :: es => some (es.foldl (fun b x => max b x.event_time) e.event_time)

/-- The staleness query `SELECT EXTRACT(EPOCH FROM (NOW() - MAX(event_time))) AS seconds_stale`:
SQL `NOW() - MAX(...)` is `NULL` (so `seconds_stale is None`) exactly when the
table has no rows. -/
def staleQuery (db : List Event) (now : ℚ) : Option ℚ :=
  (maxEventTime db).map (fun t => now - t)

/-- The rows satisfying `event_time >= NOW() - (window_minutes || ' minutes')::interval`. -/
def windowed (db : List Event) (now : ℚ) (window_minutes : Int) : List Event :=
  db.filter (fun e => now - (window_minutes : ℚ) * 60 ≤ e.event_time)

/-- The distinct `GROUP BY conveyor_id, source_pi` keys of the windowed rows. -/
def groupKeys (db : List Event) (now : ℚ) (window_minutes : Int) : List (String × String) :=
  ((windowed db now window_minutes).map (fun e => (e.conveyor_id, e.source_pi))).dedup

/-- The windowed rows of one group key. -/
def groupOf (db : List Event) (now : ℚ) (window_minutes : Int)
    (k : String × String) : List Event :=
  (windowed db now window_minutes).filter
    (fun e => e.conveyor_id == k.1 && e.source_pi == k.2)

/-- The mean `AVG(duration_sec)` of a list of rows. -/
def avgDuration (l : List Event) : ℚ :=
  (l.map (fun e => e.duration_sec)).sum / (l.length : ℚ)

/-- The mean duration of one windowed group. -/
def groupAvg (db : List Event) (now : ℚ) (window_minutes : Int)
    (k : String × String) : ℚ :=
  avgDuration (groupOf db now window_minutes k)

/-- The group keys surviving `HAVING COUNT(*) >= 5`. -/
def qualifying (db : List Event) (now : ℚ) (window_minutes : Int) :
    List (String × String) :=
  (groupKeys db now window_minutes).filter
    (fun k => decide (5 ≤ (groupOf db now window_minutes k).length))

/-- A row of the windowed aggregate:
`SELECT conveyor_id, source_pi, AVG(duration_sec) AS avg_duration, COUNT(*) AS n`. -/
structure WStat where
  conveyor_id : String
  source_pi : String
  avg_duration : ℚ
  n : Nat
deriving DecidableEq, Repr

/-- The windowed-aggregate query: group, keep groups with at least 5 rows,
`ORDER BY AVG(duration_sec) DESC LIMIT 1`; `none` when no group qualifies. -/
def worstQuery (db : List Event) (now : ℚ) (window_minutes : Int) : Option WStat :=
  match qualifying db now window_minutes with
  | [] => none
  | k :: ks =>
    let best := pickMax (fun k => groupAvg db now window_minutes k) k ks
    some { conveyor_id := best.1
           source_pi := best.2
           avg_duration := groupAvg db now window_minutes best
           n := (groupOf db now window_minutes best).length }

/-- CPython `int(x)` on a numeric value: truncation toward zero
(`int(-2.5) == -2`), i.e. the ceiling below zero and the floor elsewhere. -/
def ratTrunc (q : ℚ) : Int :=
  if q < 0 then ⌈q⌉ else ⌊q⌋

/-- The message `f"No conveyor events in the last {int(seconds_stale)} seconds."` -/
def staleMessage (k : Int) : String :=
  "No conveyor events in the last " ++ toString k ++ " seconds."

/-- The alert appended when `seconds_stale is None` (table empty). -/
def noDataAlert : Alert :=
  { type := "conveyor_no_data"
    severity := "critical"
    title := "No conveyor data"
    message := "raw_conveyor has no rows yet."
    source := "raw_conveyor"
    event_time := none
    conveyor_id := none
    part_id := none
    source_pi := none
    trigger_value := none
    threshold := none }

/-- The alert appended when `float(seconds_stale) > float(conveyor_stale_seconds)`;
every identifier lookup on `latest` is guarded by `if latest else None`. -/
def staleAlert (s : ℚ) (conveyor_stale_seconds : Int) (latest : Option Event) : Alert :=
  { type := "conveyor_stale"
    severity := "warning"
    title := "Conveyor events stopped"
    message := staleMessage (ratTrunc s)
    source := "raw_conveyor"
    event_time := latest.map (fun e => toString e.event_time)
    conveyor_id := latest.map (fun e => e.conveyor_id)
    part_id := latest.map (fun e => e.part_id)
    source_pi := latest.map (fun e => e.source_pi)
    trigger_value := some s
    threshold := some (conveyor_stale_seconds : ℚ) }

/-- Two-decimal rendering used by `f"{avg_d:.2f}"`, modelled as exact
half-up rounding of the rational to hundredths (CPython formats the binary
float nearest to `avg_d`; no theorem below depends on this field). -/
def fmt2 (q : ℚ) : String :=
  let h : Int := ⌊q * 100 + 1 / 2⌋
  toString ((h : ℚ) / 100)

/-- The message `f'Conveyor {cid} avg duration {avg:.2f}s in last {wm} min (n={n}).'` -/
def slowMessage (cid : String) (avg : ℚ) (window_minutes : Int) (n : Nat) : String :=
  "Conveyor " ++ cid ++ " avg duration " ++ fmt2 avg ++ "s in last " ++
    toString window_minutes ++ " min (n=" ++ toString n ++ ")."

/-- The alert appended when the worst qualifying group has
`avg_d > float(conveyor_slow_duration)`. -/
def slowAlert (w : WStat) (conveyor_slow_duration : ℚ) (window_minutes : Int) : Alert :=
  { type := "conveyor_slow"
    severity := "warning"
    title := "Conveyor running slow"
    message := slowMessage w.conveyor_id w.avg_duration window_minutes w.n
    source := "raw_conveyor"
    event_time := none
    conveyor_id := some w.conveyor_id
    part_id := none
    source_pi := some w.source_pi
    trigger_value := some w.avg_duration
    threshold := some conveyor_slow_duration }

/-- The `if seconds_stale is None ... else if float(seconds_stale) > ...`
chain: the alerts appended before the windowed query runs. -/
def staleOrNoDataAlerts (latest : Option Event) (seconds_stale : Option ℚ)
    (conveyor_stale_seconds : Int) : List Alert :=
  match seconds_stale with
  | none => [noDataAlert]
  | some s =>
    if (conveyor_stale_seconds : ℚ) < s then [staleAlert s conveyor_stale_seconds latest]
    else []

/-- The `if worst and worst["avg_duration"] is not None: if avg_d > ...` block.
(`avg_duration` is total here because `duration_sec` is a non-null column of
the data model, so the `is not None` guard never fires.) -/
def slowAlerts (worst : Option WStat) (conveyor_slow_duration : ℚ)
    (window_minutes : Int) : List Alert :=
  match worst with
  | none => []
  | some w =>
    if conveyor_slow_duration < w.avg_duration then [slowAlert w conveyor_slow_duration window_minutes]
    else []

/-- The rule evaluator: the full `active_alerts` list the endpoint builds from
the three query results, in append order. -/
def activeAlerts (latest : Option Event) (seconds_stale : Option ℚ)
    (worst : Option WStat) (conveyor_stale_seconds : Int)
    (conveyor_slow_duration : ℚ) (window_minutes : Int) : List Alert :=
  staleOrNoDataAlerts latest seconds_stale conveyor_stale_seconds ++
    slowAlerts worst conveyor_slow_duration window_minutes

/-- A successful run of the endpoint body against a consistent snapshot `db`
at time `now`: the three queries feed the rule chain and the response wraps
the list with its length. -/
def alertsOk (db : List Event) (now : ℚ) (conveyor_stale_seconds : Int)
    (conveyor_slow_duration : ℚ) (window_minutes : Int) : AlertsResponse :=
  let L := activeAlerts (latestQuery db) (staleQuery db now)
    (worstQuery db now window_minutes)
    conveyor_stale_seconds conveyor_slow_duration window_minutes
  { alerts := L, count := L.length }

/-- The endpoint with its `try/except`: each of the three reads may raise;
the first raise aborts the body and becomes `HTTPException(500, str(e))`,
modelled as `Except.error` carrying the detail string. -/
def alertsEndpoint (fetchLatest : Except String (Option Event))
    (fetchStale : Except String (Option ℚ))
    (fetchWorst : Except String (Option WStat))
    (conveyor_stale_seconds : Int) (conveyor_slow_duration : ℚ)
    (window_minutes : Int) : Except String AlertsResponse := do
  let latest ← fetchLatest
  let seconds_stale ← fetchStale
  let firstAlerts := staleOrNoDataAlerts latest seconds_stale conveyor_stale_seconds
  let worst ← fetchWorst
  let L := firstAlerts ++ slowAlerts worst conveyor_slow_duration window_minutes
  pure { alerts := L, count := L.length }

/-- One observable call against database state `db`: the response together
with the database after the call (the endpoint only reads). -/
def alertsCall (db : List Event) (now : ℚ) (conveyor_stale_seconds : Int)
    (conveyor_slow_duration : ℚ) (window_minutes : Int) :
    AlertsResponse × List Event :=
  (alertsOk db now conveyor_stale_seconds conveyor_slow_duration window_minutes, db)

/-- Fixture: an event 5 seconds into the past of `now = 50` (Scenario B's data). -/
def staleEventB : Event :=
  { id := 1, conveyor_id := "c1", part_id := "p1", source_pi := "pi1",
    duration_sec := 1, speed := 2, event_time := 5 }

/-- Fixture: a row of the slow conveyor `c1`/`pi1` with duration 4 seconds. -/
def slowEvent (i : Int) (t : ℚ) : Event :=
  { id := i, conveyor_id := "c1", part_id := "p1", source_pi := "pi1",
    duration_sec := 4, speed := 2, event_time := t }

/-- Fixture: five in-window rows of one group averaging 4 seconds. -/
def slowEvents : List Event :=
  [slowEvent 1 1, slowEvent 2 2, slowEvent 3 3, slowEvent 4 4, slowEvent 5 5]

/-- Fixture: a row of conveyor `c1`/`pi1` with duration 10 seconds. -/
def floorEvent (i : Int) (t : ℚ) : Event :=
  { id := i, conveyor_id := "c1", part_id := "p1", source_pi := "pi1",
    duration_sec := 10, speed := 2, event_time := t }

/-- Fixture: only four in-window rows (Scenario D's data), averaging 10 seconds. -/
def floorEvents : List Event :=
  [floorEvent 1 1, floorEvent 2 2, floorEvent 3 3, floorEvent 4 4]

/-- Fixture: an event whose `event_time` lies 5/2 seconds in the future of
`now = 0`, making the measured staleness the negative non-integer `-(5/2)`. -/
def staleFutureEvent : Event :=
  { id := 2, conveyor_id := "c2", part_id := "p2", source_pi := "pi2",
    duration_sec := 1, speed := 1, event_time := 5 / 2 }

/-- The staleness aggregate is `none` exactly on the empty table. -/
theorem staleQuery_eq_none_iff (db : List Event) (now : ℚ) :
    staleQuery db now = none ↔ db = [] := by
  cases db <;> simp [staleQuery, maxEventTime]

/-- C1: a partition with zero conveyor events (null staleness aggregate)
yields exactly the single critical `conveyor_no_data` alert, with every
nullable field null, and count 1; the slow rule finds no qualifying group. -/
theorem alerts_no_data_rule (db : List Event) (now : ℚ)
    (conveyor_stale_seconds : Int) (conveyor_slow_duration : ℚ)
    (window_minutes : Int)
    (h : staleQuery db now = none) :
    alertsOk db now conveyor_stale_seconds conveyor_slow_duration window_minutes =
      { alerts := [noDataAlert], count := 1 } := by
  have hdb : db = [] := (staleQuery_eq_none_iff db now).mp h
  subst hdb
  rfl

/-- C1 witness: the empty table at a concrete time and configuration. -/
theorem alerts_no_data_rule_witness :
    alertsOk [] 0 30 3 2 = { alerts := [noDataAlert], count := 1 } :=
  alerts_no_data_rule [] 0 30 3 2 rfl

/-- Unfolding one step of the `pickMax` fold. -/
theorem pickMax_cons {α : Type} (f : α → ℚ) (a x : α) (l : List α) :
    pickMax f a (x :: l) = pickMax f (if f a < f x then x else a) l := rfl

/-- The fold's result is the seed or one of the folded elements. -/
theorem pickMax_eq_or_mem {α : Type} (f : α → ℚ) (a : α) (l : List α) :
    pickMax f a l = a ∨ pickMax f a l ∈ l := by
  induction l generalizing a with
  | nil => exact Or.inl rfl
  | cons x xs ih =>
    rw [pickMax_cons]
    by_cases hc : f a < f x
    · rw [if_pos hc]
      rcases ih x with h | h
      · rw [h]
        exact Or.inr (List.mem_cons_self x xs)
      · exact Or.inr (List.mem_cons_of_mem x h)
    · rw [if_neg hc]
      rcases ih a with h | h
      · exact Or.inl h
      · exact Or.inr (List.mem_cons_of_mem x h)

/-- The fold's key dominates the seed's key. -/
theorem le_pickMax_seed {α : Type} (f : α → ℚ) (a : α) (l : List α) :
    f a ≤ f (pickMax f a l) := by
  induction l generalizing a with
  | nil => exact le_refl _
  | cons x xs ih =>
    rw [pickMax_cons]
    by_cases hc : f a < f x
    · rw [if_pos hc]
      exact le_trans (le_of_lt hc) (ih x)
    · rw [if_neg hc]
      exact ih a

/-- The fold's key dominates every folded element's key. -/
theorem le_pickMax_mem {α : Type} (f : α → ℚ) (a : α) (l : List α) :
    ∀ x ∈ l, f x ≤ f (pickMax f a l) := by
  induction l generalizing a with
  | nil => intro x hx; cases hx
  | cons y ys ih =>
    intro x hx
    rw [pickMax_cons]
    rcases List.mem_cons.mp hx with rfl | hx
    · by_cases hc : f a < f x
      · rw [if_pos hc]
        exact le_pickMax_seed f x ys
      · rw [if_neg hc]
        exact le_trans (le_of_not_lt hc) (le_pickMax_seed f a ys)
    · exact ih _ x hx

/-- The first rule block appends nothing, the no-data alert, or the stale
alert for the measured staleness. -/
theorem staleOrNoDataAlerts_shape (latest : Option Event) (s : Option ℚ) (cs : Int) :
    staleOrNoDataAlerts latest s cs = [] ∨
    (s = none ∧ staleOrNoDataAlerts latest s cs = [noDataAlert]) ∨
    ∃ s', s = some s' ∧ (cs : ℚ) < s' ∧
      staleOrNoDataAlerts latest s cs = [staleAlert s' cs latest] := by
  cases s with
  | none => exact Or.inr (Or.inl ⟨rfl, rfl⟩)
  | some s' =>
    by_cases hc : (cs : ℚ) < s'
    · exact Or.inr (Or.inr ⟨s', rfl, hc, by simp [staleOrNoDataAlerts, hc]⟩)
    · exact Or.inl (by simp [staleOrNoDataAlerts, hc])

/-- The slow rule block appends nothing or the slow alert for the worst group. -/
theorem slowAlerts_shape (worst : Option WStat) (cd : ℚ) (wm : Int) :
    slowAlerts worst cd wm = [] ∨
    ∃ w, worst = some w ∧ cd < w.avg_duration ∧
      slowAlerts worst cd wm = [slowAlert w cd wm] := by
  cases worst with
  | none => exact Or.inl rfl
  | some w =>
    by_cases hc : cd < w.avg_duration
    · exact Or.inr ⟨w, rfl, hc, by simp [slowAlerts, hc]⟩
    · exact Or.inl (by simp [slowAlerts, hc])

/-- The slow block never contributes an alert typed `conveyor_stale`. -/
theorem filter_stale_slowAlerts (worst : Option WStat) (cd : ℚ) (wm : Int) :
    (slowAlerts worst cd wm).filter (fun a => a.type == "conveyor_stale") = [] := by
  rcases slowAlerts_shape worst cd wm with h | ⟨w, _, _, h⟩ <;> rw [h] <;> rfl

/-- The first rule block never contributes an alert typed `conveyor_slow`. -/
theorem filter_slow_staleOrNoDataAlerts (latest : Option Event) (s : Option ℚ) (cs : Int) :
    (staleOrNoDataAlerts latest s cs).filter (fun a => a.type == "conveyor_slow") = [] := by
  rcases staleOrNoDataAlerts_shape latest s cs with h | ⟨_, h⟩ | ⟨s', _, _, h⟩ <;>
    rw [h] <;> rfl

/-- C2: on a non-empty partition the stale rule fires exactly when the
measured staleness exceeds the configured threshold, producing exactly one
`conveyor_stale` alert whose trigger is the measured staleness, whose
threshold is the configured limit, and whose identifiers come from the most
recent event; otherwise no `conveyor_stale` alert is present. -/
theorem alerts_stale_rule (db : List Event) (now : ℚ) (cs : Int) (cd : ℚ)
    (wm : Int) (s : ℚ) (hs : staleQuery db now = some s) :
    ((cs : ℚ) < s →
      ∃ L, latestQuery db = some L ∧ (∀ x ∈ db, x.event_time ≤ L.event_time) ∧
        (alertsOk db now cs cd wm).alerts.filter
          (fun a => a.type == "conveyor_stale") = [staleAlert s cs (some L)]) ∧
    (¬ (cs : ℚ) < s →
      (alertsOk db now cs cd wm).alerts.filter
        (fun a => a.type == "conveyor_stale") = []) := by
  have hdb : db ≠ [] := by
    intro h0
    rw [h0] at hs
    simp [staleQuery, maxEventTime] at hs
  obtain ⟨e, es, rfl⟩ : ∃ e es, db = e :: es := by
    cases db with
    | nil => exact absurd rfl hdb
    | cons e es => exact ⟨e, es, rfl⟩
  constructor
  · intro hgt
    refine ⟨pickMax (fun x => x.event_time) e es, rfl, ?_, ?_⟩
    · intro x hx
      rcases List.mem_cons.mp hx with rfl | hx
      · exact le_pickMax_seed (fun x => x.event_time) x es
      · exact le_pickMax_mem (fun x => x.event_time) e es x hx
    · simp only [alertsOk, activeAlerts, List.filter_append]
      rw [filter_stale_slowAlerts, List.append_nil, hs]
      have hfire : staleOrNoDataAlerts (latestQuery (e :: es)) (some s) cs
          = [staleAlert s cs (latestQuery (e :: es))] := by
        simp [staleOrNoDataAlerts, hgt]
      rw [hfire]
      rfl
  · intro hle
    simp only [alertsOk, activeAlerts, List.filter_append]
    rw [filter_stale_slowAlerts, List.append_nil, hs]
    simp [staleOrNoDataAlerts, hle]

/-- C2 witness: one event 45 seconds old against `conveyor_stale_seconds = 30`:
the stale alert fires with trigger 45 and threshold 30. -/
theorem alerts_stale_rule_witness :
    ∃ L, latestQuery [staleEventB] = some L ∧
      (∀ x ∈ [staleEventB], x.event_time ≤ L.event_time) ∧
      (alertsOk [staleEventB] 50 30 3 2).alerts.filter
        (fun a => a.type == "conveyor_stale") = [staleAlert 45 30 (some L)] := by
  obtain ⟨L, h1, h2, h3⟩ := (alerts_stale_rule [staleEventB] 50 30 3 2 45
    (by norm_num [staleQuery, maxEventTime, staleEventB])).1 (by norm_num)
  exact ⟨L, h1, h2, h3⟩

/-- C3: when some qualifying windowed group's mean duration exceeds the
threshold, exactly one `conveyor_slow` alert is present; its trigger is the
maximum mean over all qualifying groups, its threshold the configured limit,
its identifiers come from the selected group and `part_id` is null; when no
qualifying group's mean exceeds the threshold, no `conveyor_slow` alert is
present. -/
theorem alerts_slow_rule (db : List Event) (now : ℚ) (cs : Int) (cd : ℚ)
    (wm : Int) :
    ((∃ k ∈ qualifying db now wm, cd < groupAvg db now wm k) →
      ∃ w, worstQuery db now wm = some w ∧
        (alertsOk db now cs cd wm).alerts.filter
          (fun a => a.type == "conveyor_slow") = [slowAlert w cd wm] ∧
        (∀ k ∈ qualifying db now wm, groupAvg db now wm k ≤ w.avg_duration) ∧
        (∃ k ∈ qualifying db now wm, k.1 = w.conveyor_id ∧ k.2 = w.source_pi ∧
          groupAvg db now wm k = w.avg_duration ∧
          (groupOf db now wm k).length = w.n)) ∧
    ((∀ k ∈ qualifying db now wm, groupAvg db now wm k ≤ cd) →
      (alertsOk db now cs cd wm).alerts.filter
        (fun a => a.type == "conveyor_slow") = []) := by
  constructor
  · rintro ⟨k0, hk0, hgt0⟩
    obtain ⟨k, ks, hq⟩ : ∃ k ks, qualifying db now wm = k :: ks := by
      cases hql : qualifying db now wm with
      | nil => rw [hql] at hk0; cases hk0
      | cons k ks => exact ⟨k, ks, rfl⟩
    have hw : worstQuery db now wm =
        some { conveyor_id := (pickMax (fun k => groupAvg db now wm k) k ks).1
               source_pi := (pickMax (fun k => groupAvg db now wm k) k ks).2
               avg_duration :=
                 groupAvg db now wm (pickMax (fun k => groupAvg db now wm k) k ks)
               n := (groupOf db now wm
                 (pickMax (fun k => groupAvg db now wm k) k ks)).length } := by
      unfold worstQuery
      rw [hq]
    have hmem : pickMax (fun k => groupAvg db now wm k) k ks ∈ qualifying db now wm := by
      rw [hq]
      rcases pickMax_eq_or_mem (fun k => groupAvg db now wm k) k ks with h | h
    
      · rw [h]
        exact List.mem_cons_self k ks
      · exact List.mem_cons_of_mem k h
    have hmax : ∀ k' ∈ qualifying db now wm, groupAvg db now wm k' ≤
        groupAvg db now wm (pickMax (fun k => groupAvg db now wm k) k ks) := by
      intro k' hk'
      rw [hq] at hk'
      rcases List.mem_cons.mp hk' with rfl | h
      · exact le_pickMax_seed (fun k => groupAvg db now wm k) k' ks
      · exact le_pickMax_mem (fun k => groupAvg db now wm k) k ks k' h
    have hgt : cd < groupAvg db now wm (pickMax (fun k => groupAvg db now wm k) k ks) :=
      lt_of_lt_of_le hgt0 (hmax k0 hk0)
    refine ⟨_, hw, ?_, ?_, ?_⟩
    · simp only [alertsOk, activeAlerts, List.filter_append]
      rw [filter_slow_staleOrNoDataAlerts, List.nil_append, hw]
      have hfire : slowAlerts (some
          { conveyor_id := (pickMax (fun k => groupAvg db now wm k) k ks).1
            source_pi := (pickMax (fun k => groupAvg db now wm k) k ks).2
            avg_duration :=
              groupAvg db now wm (pickMax (fun k => groupAvg db now wm k) k ks)
            n := (groupOf db now wm
              (pickMax (fun k => groupAvg db now wm k) k ks)).length }) cd wm
          = [slowAlert
              { conveyor_id := (pickMax (fun k => groupAvg db now wm k) k ks).1
                source_pi := (pickMax (fun k => groupAvg db now wm k) k ks).2
                avg_duration :=
                  groupAvg db now wm (pickMax (fun k => groupAvg db now wm k) k ks)
                n := (groupOf db now wm
                  (pickMax (fun k => groupAvg db now wm k) k ks)).length } cd wm] := by
        simp [slowAlerts, hgt]
      rw [hfire]
      rfl
    · exact hmax
    · exact ⟨pickMax (fun k => groupAvg db now wm k) k ks, hmem, rfl, rfl, rfl, rfl⟩
  · intro hall
    simp only [alertsOk, activeAlerts, List.filter_append]
    rw [filter_slow_staleOrNoDataAlerts, List.nil_append]
    cases hq : qualifying db now wm with
    | nil =>
      have hw : worstQuery db now wm = none := by
        unfold worstQuery
        rw [hq]
      rw [hw]
      rfl
    | cons k ks =>
      have hmem : pickMax (fun k => groupAvg db now wm k) k ks ∈ qualifying db now wm := by
        rw [hq]
        rcases pickMax_eq_or_mem (fun k => groupAvg db now wm k) k ks with h | h
        · rw [h]
          exact List.mem_cons_self k ks
        · exact List.mem_cons_of_mem k h
      have hle : ¬ cd < groupAvg db now wm (pickMax (fun k => groupAvg db now wm k) k ks) :=
        not_lt.mpr (hall _ hmem)
      have hw : worstQuery db now wm =
          some { conveyor_id := (pickMax (fun k => groupAvg db now wm k) k ks).1
                 source_pi := (pickMax (fun k => groupAvg db now wm k) k ks).2
                 avg_duration :=
                   groupAvg db now wm (pickMax (fun k => groupAvg db now wm k) k ks)
                 n := (groupOf db now wm
                   (pickMax (fun k => groupAvg db now wm k) k ks)).length } := by
        unfold worstQuery
        rw [hq]
      rw [hw]
      simp [slowAlerts, hle]

/-- C4: when every windowed group has fewer than 5 samples no `conveyor_slow`
alert is emitted, whatever the means are; and any group with 5 or more
samples qualifies. -/
theorem alerts_sample_floor (db : List Event) (now : ℚ) (cs : Int) (cd : ℚ)
    (wm : Int) :
    ((∀ k ∈ groupKeys db now wm, (groupOf db now wm k).length < 5) →
      (alertsOk db now cs cd wm).alerts.filter
        (fun a => a.type == "conveyor_slow") = []) ∧
    (∀ k ∈ groupKeys db now wm, 5 ≤ (groupOf db now wm k).length →
      k ∈ qualifying db now wm) := by
  constructor
  · intro hall
    have hq : qualifying db now wm = [] := by
      rw [qualifying, List.filter_eq_nil_iff]
      intro k hk
      simp only [decide_eq_true_eq]
      exact Nat.not_le.mpr (hall k hk)
    have hw : worstQuery db now wm = none := by
      unfold worstQuery
      rw [hq]
    simp only [alertsOk, activeAlerts, List.filter_append]
    rw [filter_slow_staleOrNoDataAlerts, List.nil_append, hw]
    rfl
  · intro k hk h5
    rw [qualifying]
    refine List.mem_filter.mpr ⟨hk, ?_⟩
    simp only [decide_eq_true_eq]
    exact h5

/-- The first rule block is untouched by the not-slow filter. -/
theorem filter_not_slow_staleOrNoDataAlerts (latest : Option Event) (s : Option ℚ)
    (cs : Int) :
    (staleOrNoDataAlerts latest s cs).filter (fun a => !(a.type == "conveyor_slow"))
      = staleOrNoDataAlerts latest s cs := by
  rcases staleOrNoDataAlerts_shape latest s cs with h | ⟨_, h⟩ | ⟨s', _, _, h⟩ <;>
    rw [h] <;> rfl

/-- The slow block is erased by the not-slow filter. -/
theorem filter_not_slow_slowAlerts (worst : Option WStat) (cd : ℚ) (wm : Int) :
    (slowAlerts worst cd wm).filter (fun a => !(a.type == "conveyor_slow")) = [] := by
  rcases slowAlerts_shape worst cd wm with h | ⟨w, _, _, h⟩ <;> rw [h] <;> rfl

/-- The slow block is untouched by the slow filter. -/
theorem filter_slow_slowAlerts (worst : Option WStat) (cd : ℚ) (wm : Int) :
    (slowAlerts worst cd wm).filter (fun a => a.type == "conveyor_slow")
      = slowAlerts worst cd wm := by
  rcases slowAlerts_shape worst cd wm with h | ⟨w, _, _, h⟩ <;> rw [h] <;> rfl

/-- C5: the response is exactly the rule evaluator's list wrapped with its
length, and the list keeps rule order: the alerts that are not
`conveyor_slow` (rules 1 and 2) form a prefix, the `conveyor_slow` alerts a
suffix. -/
theorem alerts_response_shape (db : List Event) (now : ℚ) (cs : Int) (cd : ℚ)
    (wm : Int) :
    alertsOk db now cs cd wm =
      { alerts := activeAlerts (latestQuery db) (staleQuery db now)
          (worstQuery db now wm) cs cd wm
        count := (activeAlerts (latestQuery db) (staleQuery db now)
          (worstQuery db now wm) cs cd wm).length } ∧
    (alertsOk db now cs cd wm).count = (alertsOk db now cs cd wm).alerts.length ∧
    (alertsOk db now cs cd wm).alerts.filter (fun a => !(a.type == "conveyor_slow")) ++
      (alertsOk db now cs cd wm).alerts.filter (fun a => a.type == "conveyor_slow") =
      (alertsOk db now cs cd wm).alerts := by
  refine ⟨rfl, rfl, ?_⟩
  show (activeAlerts (latestQuery db) (staleQuery db now) (worstQuery db now wm)
      cs cd wm).filter (fun a => !(a.type == "conveyor_slow")) ++
    (activeAlerts (latestQuery db) (staleQuery db now) (worstQuery db now wm)
      cs cd wm).filter (fun a => a.type == "conveyor_slow") =
    activeAlerts (latestQuery db) (staleQuery db now) (worstQuery db now wm) cs cd wm
  rw [activeAlerts, List.filter_append, List.filter_append,
    filter_not_slow_staleOrNoDataAlerts, filter_not_slow_slowAlerts,
    filter_slow_staleOrNoDataAlerts, filter_slow_slowAlerts,
    List.append_nil, List.nil_append]

/-- C6: if any of the three reads raises, the call returns the error with
that read's detail string and no alert list at all — even though the first
two rules' alerts were already computed before the windowed read. -/
theorem alerts_error_aborts (fl : Except String (Option Event))
    (fs : Except String (Option ℚ)) (fw : Except String (Option WStat))
    (cs : Int) (cd : ℚ) (wm : Int) :
    ((∃ e, fl = Except.error e) ∨ (∃ e, fs = Except.error e) ∨
      (∃ e, fw = Except.error e)) →
    ∃ e, alertsEndpoint fl fs fw cs cd wm = Except.error e ∧
      (fl = Except.error e ∨ fs = Except.error e ∨ fw = Except.error e) := by
  intro h
  cases fl with
  | error e => exact ⟨e, rfl, Or.inl rfl⟩
  | ok latest =>
    cases fs with
    | error e => exact ⟨e, rfl, Or.inr (Or.inl rfl)⟩
    | ok s =>
      cases fw with
      | error e => exact ⟨e, rfl, Or.inr (Or.inr rfl)⟩
      | ok w =>
        rcases h with ⟨e, he⟩ | ⟨e, he⟩ | ⟨e, he⟩ <;> cases he

/-- C6 witness: the windowed read fails after the stale rule already had data;
the whole call degenerates to that single error. -/
theorem alerts_error_aborts_witness :
    ∃ e, alertsEndpoint (Except.ok (some staleEventB)) (Except.ok (some 45))
        (Except.error "connection refused") 30 3 2 = Except.error e ∧
      (Except.ok (some staleEventB) = Except.error e ∨
        (Except.ok (some (45 : ℚ)) : Except String (Option ℚ)) = Except.error e ∨
        (Except.error "connection refused" : Except String (Option WStat)) =
          Except.error e) :=
  alerts_error_aborts (Except.ok (some staleEventB)) (Except.ok (some 45))
    (Except.error "connection refused") 30 3 2
    (Or.inr (Or.inr ⟨"connection refused", rfl⟩))

/-- C7: a call returns the database unchanged, and a second call with the
same parameters on the state the first call left behind returns the same
response — the computation is a pure function of `(db, now, config)`. -/
theorem alerts_idempotent (db : List Event) (now : ℚ) (cs : Int) (cd : ℚ)
    (wm : Int) :
    (alertsCall db now cs cd wm).2 = db ∧
    (alertsCall db now cs cd wm).1 =
      (alertsCall (alertsCall db now cs cd wm).2 now cs cd wm).1 :=
  ⟨rfl, rfl⟩

/-- Filtering a two-element list of distinct types keeps at most one element. -/
theorem length_filter_pair_le_one (a b : Alert) (h : a.type ≠ b.type) (t : String) :
    (List.filter (fun x => x.type == t) [a, b]).length ≤ 1 := by
  by_cases ha : a.type = t <;> by_cases hb : b.type = t
  · exact absurd (ha.trans hb.symm) h
  · simp [List.filter_cons, ha, hb]
  · simp [List.filter_cons, ha, hb]
  · simp [List.filter_cons, ha, hb]

/-- The four C9 invariants, for any list shaped like rules 1-2 followed by
rule 3: a possibly-empty no-data-or-stale part then a possibly-empty slow
part. -/
theorem invariants_of_parts (A B : List Alert)
    (hA : A = [] ∨ ∃ a, A = [a] ∧
      (a.type = "conveyor_no_data" ∨ a.type = "conveyor_stale"))
    (hB : B = [] ∨ ∃ b, B = [b] ∧ b.type = "conveyor_slow") :
    (∀ x ∈ A ++ B, x.type = "conveyor_no_data" ∨ x.type = "conveyor_stale" ∨
      x.type = "conveyor_slow") ∧
    (∀ t : String, ((A ++ B).filter (fun x => x.type == t)).length ≤ 1) ∧
    ¬ ((∃ x ∈ A ++ B, x.type = "conveyor_no_data") ∧
      (∃ x ∈ A ++ B, x.type = "conveyor_stale")) ∧
    (A ++ B).length ≤ 2 := by
  rcases hA with rfl | ⟨a, rfl, hat⟩ <;> rcases hB with rfl | ⟨b, rfl, hbt⟩
  · refine ⟨?_, ?_, ?_, ?_⟩ <;> simp
  · refine ⟨?_, ?_, ?_, ?_⟩
    · intro x hx
      rw [List.nil_append, List.mem_singleton] at hx
      subst hx
      exact Or.inr (Or.inr hbt)
    · intro t
      exact le_trans (List.length_filter_le _ _) (by simp)
    · rintro ⟨⟨x, hx, hxt⟩, -⟩
      rw [List.nil_append, List.mem_singleton] at hx
      subst hx
      rw [hbt] at hxt
      exact absurd hxt (by decide)
    · simp
  · refine ⟨?_, ?_, ?_, ?_⟩
    · intro x hx
      rw [List.append_nil, List.mem_singleton] at hx
      subst hx
      rcases hat with h | h
      · exact Or.inl h
      · exact Or.inr (Or.inl h)
    · intro t
      exact le_trans (List.length_filter_le _ _) (by simp)
    · rintro ⟨⟨x, hx, hxt⟩, ⟨y, hy, hyt⟩⟩
      rw [List.append_nil, List.mem_singleton] at hx hy
      subst hx
      subst hy
      rw [hxt] at hyt
      exact absurd hyt (by decide)
    · simp
  · refine ⟨?_, ?_, ?_, ?_⟩
    · intro x hx
      rcases List.mem_cons.mp hx with rfl | hx
      · rcases hat with h | h
        · exact Or.inl h
        · exact Or.inr (Or.inl h)
      · simp at hx
        subst hx
        exact Or.inr (Or.inr hbt)
    · intro t
      refine length_filter_pair_le_one a b ?_ t
      rw [hbt]
      rcases hat with h | h <;> rw [h] <;> decide
    · rintro ⟨⟨x, hx, hxt⟩, ⟨y, hy, hyt⟩⟩
      have hxa : x = a := by
        rcases List.mem_cons.mp hx with rfl | hx
        · rfl
        · simp at hx
          subst hx
          rw [hbt] at hxt
          exact absurd hxt (by decide)
      have hya : y = a := by
        rcases List.mem_cons.mp hy with rfl | hy
        · rfl
        · simp at hy
          subst hy
          rw [hbt] at hyt
          exact absurd hyt (by decide)
      subst hxa
      subst hya
      rw [hxt] at hyt
      exact absurd hyt (by decide)
    · simp

/-- C9: every alert is one of the three known types, each type occurs at
most once, `conveyor_no_data` and `conveyor_stale` never co-occur, and the
reported count never exceeds 2. -/
theorem alerts_count_invariants (db : List Event) (now : ℚ) (cs : Int)
    (cd : ℚ) (wm : Int) :
    (∀ x ∈ (alertsOk db now cs cd wm).alerts,
      x.type = "conveyor_no_data" ∨ x.type = "conveyor_stale" ∨
        x.type = "conveyor_slow") ∧
    (∀ t : String,
      ((alertsOk db now cs cd wm).alerts.filter (fun x => x.type == t)).length ≤ 1) ∧
    ¬ ((∃ x ∈ (alertsOk db now cs cd wm).alerts, x.type = "conveyor_no_data") ∧
      (∃ x ∈ (alertsOk db now cs cd wm).alerts, x.type = "conveyor_stale")) ∧
    (alertsOk db now cs cd wm).count ≤ 2 := by
  have halerts : (alertsOk db now cs cd wm).alerts =
      staleOrNoDataAlerts (latestQuery db) (staleQuery db now) cs ++
        slowAlerts (worstQuery db now wm) cd wm := rfl
  have hcount : (alertsOk db now cs cd wm).count =
      (staleOrNoDataAlerts (latestQuery db) (staleQuery db now) cs ++
        slowAlerts (worstQuery db now wm) cd wm).length := rfl
  rw [halerts, hcount]
  refine invariants_of_parts _ _ ?_ ?_
  · rcases staleOrNoDataAlerts_shape (latestQuery db) (staleQuery db now) cs with
      h | ⟨-, h⟩ | ⟨s', -, -, h⟩
    · exact Or.inl h
    · exact Or.inr ⟨noDataAlert, h, Or.inl rfl⟩
    · exact Or.inr ⟨staleAlert s' cs (latestQuery db), h, Or.inr rfl⟩
  · rcases slowAlerts_shape (worstQuery db now wm) cd wm with h | ⟨w, -, -, h⟩
    · exact Or.inl h
    · exact Or.inr ⟨slowAlert w cd wm, h, rfl⟩

/-- C10: with a vanished latest row but a non-null staleness above threshold
(the tolerated race between the two reads), the stale alert is still emitted,
with every identifier field null. -/
theorem alerts_stale_race_guarded (s : ℚ) (cs : Int) (cd : ℚ) (wm : Int)
    (worst : Option WStat) (hgt : (cs : ℚ) < s) :
    (activeAlerts none (some s) worst cs cd wm).filter
      (fun a => a.type == "conveyor_stale") = [staleAlert s cs none] ∧
    (staleAlert s cs none).event_time = none ∧
    (staleAlert s cs none).conveyor_id = none ∧
    (staleAlert s cs none).part_id = none ∧
    (staleAlert s cs none).source_pi = none := by
  refine ⟨?_, rfl, rfl, rfl, rfl⟩
  rw [activeAlerts, List.filter_append, filter_stale_slowAlerts, List.append_nil]
  have hfire : staleOrNoDataAlerts none (some s) cs = [staleAlert s cs none] := by
    simp [staleOrNoDataAlerts, hgt]
  rw [hfire]
  rfl

/-- C10 witness: staleness 45 against threshold 30 with no latest row. -/
theorem alerts_stale_race_guarded_witness :
    (activeAlerts none (some 45) none 30 3 2).filter
      (fun a => a.type == "conveyor_stale") = [staleAlert 45 30 none] ∧
    (staleAlert 45 30 none).event_time = none ∧
    (staleAlert 45 30 none).conveyor_id = none ∧
    (staleAlert 45 30 none).part_id = none ∧
    (staleAlert 45 30 none).source_pi = none :=
  alerts_stale_race_guarded 45 30 3 2 none (by norm_num)

/-- Every `conveyor_stale`-typed alert the evaluator emits for measured
staleness `s'` carries the message built from the toward-zero truncation of
`s'`, exactly as `int(seconds_stale)` does. -/
theorem stale_message_of_mem (latest : Option Event) (s' : ℚ)
    (worst : Option WStat) (cs : Int) (cd : ℚ) (wm : Int) :
    ∀ a ∈ activeAlerts latest (some s') worst cs cd wm,
      a.type = "conveyor_stale" → a.message = staleMessage (ratTrunc s') := by
  intro a ha hat
  rcases List.mem_append.mp ha with h1 | h2
  · rcases staleOrNoDataAlerts_shape latest (some s') cs with
      h | ⟨hnone, h⟩ | ⟨t, ht, hgt, h⟩
    · rw [h] at h1
      cases h1
    · cases hnone
    · rw [h, List.mem_singleton] at h1
      subst h1
      injection ht with ht'
      rw [ht']
      rfl
  · rcases slowAlerts_shape worst cd wm with h | ⟨w, hw, hcd, h⟩
    · rw [h] at h2
      cases h2
    · rw [h, List.mem_singleton] at h2
      subst h2
      have hty : (slowAlert w cd wm).type = "conveyor_slow" := rfl
      rw [hty] at hat
      exact absurd hat (by decide)

/-- C8 (amended): the stale alert's message contains the toward-zero
truncated integer of the measured staleness — which coincides with the
floor whenever the staleness is non-negative, but not below zero. -/
theorem alerts_stale_message_trunc (db : List Event) (now : ℚ) (cs : Int)
    (cd : ℚ) (wm : Int) (s : ℚ) (hs : staleQuery db now = some s) :
    (∀ a ∈ (alertsOk db now cs cd wm).alerts, a.type = "conveyor_stale" →
      a.message = staleMessage (ratTrunc s)) ∧
    (0 ≤ s → ratTrunc s = ⌊s⌋) := by
  constructor
  · have halerts : (alertsOk db now cs cd wm).alerts =
        activeAlerts (latestQuery db) (staleQuery db now) (worstQuery db now wm)
          cs cd wm := rfl
    rw [halerts, hs]
    exact stale_message_of_mem (latestQuery db) s (worstQuery db now wm) cs cd wm
  · intro h0
    rw [ratTrunc, if_neg (not_lt.mpr h0)]

/-- C8 witness: staleness 45 on Scenario B's data; the truncation agrees
with the floor there. -/
theorem alerts_stale_message_trunc_witness :
    (∀ a ∈ (alertsOk [staleEventB] 50 30 3 2).alerts, a.type = "conveyor_stale" →
      a.message = staleMessage (ratTrunc 45)) ∧
    ((0 : ℚ) ≤ 45 → ratTrunc 45 = ⌊(45 : ℚ)⌋) :=
  alerts_stale_message_trunc [staleEventB] 50 30 3 2 45
    (by norm_num [staleQuery, maxEventTime, staleEventB])

/-- C8 counterexample: with a future-dated event the measured staleness is
`-(5/2)`; the emitted stale alert's message shows `-2` (truncation toward
zero, as Python's `int()`), not the floor `-3` the claim asserts. -/
theorem alerts_stale_message_floor_cex :
    ∃ a ∈ (alertsOk [staleFutureEvent] 0 (-10) 3 2).alerts,
      a.type = "conveyor_stale" ∧ a.trigger_value = some (-(5 / 2) : ℚ) ∧
      a.message ≠ staleMessage ⌊(-(5 / 2) : ℚ)⌋ := by
  have hsq : staleQuery [staleFutureEvent] 0 = some (-(5 / 2)) := by
    norm_num [staleQuery, maxEventTime, staleFutureEvent]
  have hq : qualifying [staleFutureEvent] 0 2 = [] := by
    rw [qualifying, List.filter_eq_nil_iff]
    intro k hk
    simp only [decide_eq_true_eq]
    intro h5
    have h1 : (groupOf [staleFutureEvent] 0 2 k).length ≤
        (windowed [staleFutureEvent] 0 2).length := List.length_filter_le _ _
    have h2 : (windowed [staleFutureEvent] 0 2).length ≤
        ([staleFutureEvent] : List Event).length := List.length_filter_le _ _
    simp at h2
    omega
  have hw : worstQuery [staleFutureEvent] 0 2 = none := by
    unfold worstQuery
    rw [hq]
  have halerts : (alertsOk [staleFutureEvent] 0 (-10) 3 2).alerts =
      staleOrNoDataAlerts (latestQuery [staleFutureEvent])
        (staleQuery [staleFutureEvent] 0) (-10) ++
        slowAlerts (worstQuery [staleFutureEvent] 0 2) 3 2 := rfl
  have hcond : ((-10 : Int) : ℚ) < -(5 / 2) := by norm_num
  have hfire : staleOrNoDataAlerts (latestQuery [staleFutureEvent])
      (some (-(5 / 2))) (-10) =
      [staleAlert (-(5 / 2)) (-10) (latestQuery [staleFutureEvent])] :=
    if_pos hcond
  have hall : (alertsOk [staleFutureEvent] 0 (-10) 3 2).alerts =
      [staleAlert (-(5 / 2)) (-10) (latestQuery [staleFutureEvent])] := by
    rw [halerts, hsq, hw, hfire]
    rfl
  refine ⟨staleAlert (-(5 / 2)) (-10) (latestQuery [staleFutureEvent]), ?_, rfl, rfl, ?_⟩
  · rw [hall]
    exact List.mem_singleton.mpr rfl
  · show staleMessage (ratTrunc (-(5 / 2))) ≠ staleMessage ⌊(-(5 / 2) : ℚ)⌋
    have h1 : ratTrunc (-(5 / 2) : ℚ) = -2 := by
      rw [ratTrunc, if_pos (by norm_num : (-(5 / 2) : ℚ) < 0), Int.ceil_neg]
      norm_num
    have h2 : ⌊(-(5 / 2) : ℚ)⌋ = -3 := by norm_num
    rw [h1, h2]
    decide

/-- C3 witness: five in-window samples of one group averaging 4 seconds
against threshold 3: the slow alert fires for that group. -/
theorem alerts_slow_rule_witness :
    ∃ w, worstQuery slowEvents 100 2 = some w ∧
      (alertsOk slowEvents 100 30 3 2).alerts.filter
        (fun a => a.type == "conveyor_slow") = [slowAlert w 3 2] ∧
      (∀ k ∈ qualifying slowEvents 100 2,
        groupAvg slowEvents 100 2 k ≤ w.avg_duration) ∧
      (∃ k ∈ qualifying slowEvents 100 2, k.1 = w.conveyor_id ∧
        k.2 = w.source_pi ∧ groupAvg slowEvents 100 2 k = w.avg_duration ∧
        (groupOf slowEvents 100 2 k).length = w.n) := by
  have hwd : windowed slowEvents 100 2 = slowEvents := by
    norm_num [windowed, slowEvents, slowEvent, List.filter_cons, List.filter_nil]
  have hgrp : groupOf slowEvents 100 2 ("c1", "pi1") = slowEvents := by
    rw [groupOf, hwd]
    rfl
  have hmem : ("c1", "pi1") ∈ qualifying slowEvents 100 2 := by
    rw [qualifying]
    refine List.mem_filter.mpr ⟨?_, ?_⟩
    · rw [groupKeys, hwd]
      decide
    · rw [hgrp]
      decide
  have hlt : (3 : ℚ) < groupAvg slowEvents 100 2 ("c1", "pi1") := by
    rw [groupAvg, hgrp]
    norm_num [avgDuration, slowEvents, slowEvent]
  exact (alerts_slow_rule slowEvents 100 30 3 2).1 ⟨("c1", "pi1"), hmem, hlt⟩

/-- C4 witness: Scenario D — four samples averaging 10 seconds stay below
the 5-sample floor, so no slow alert fires. -/
theorem alerts_sample_floor_witness :
    (alertsOk floorEvents 100 30 3 2).alerts.filter
      (fun a => a.type == "conveyor_slow") = [] := by
  have hwd : windowed floorEvents 100 2 = floorEvents := by
    norm_num [windowed, floorEvents, floorEvent, List.filter_cons, List.filter_nil]
  refine (alerts_sample_floor floorEvents 100 30 3 2).1 ?_
  intro k hk
  rw [groupKeys, hwd] at hk
  have hgk : (List.map (fun e => (e.conveyor_id, e.source_pi)) floorEvents).dedup
      = [("c1", "pi1")] := by decide
  rw [hgk, List.mem_singleton] at hk
  subst hk
  rw [groupOf, hwd]
  decide
